import Mathlib

/-!
Verification development for the `sexp` Go package (alttpo/sexp), a parser
and encoder for a restricted S-expression format (atoms: token, hexadecimal
octet-string, base64 octet-string; parenthesized lists thereof).

The definitions below are a shallow embedding of the final revision of
`sexp.go` (the revision with the `encoding` struct carrying the
`DisallowNewlines` flag, `KindList`/`KindToken`/`KindHexadecimal`/`KindBase64`
node kinds, and the `LimitedEncoding`/`FullEncoding` entry points).

Modelling conventions:
- The `io.RuneScanner` cursor is modelled as a `List Char` of the remaining
  runes.  `ReadRune` is pattern matching on the head; `UnreadRune` (which in
  the Go code always immediately follows a successful `ReadRune`) is consing
  the read rune back on.  Go strings are UTF-8; a stray input byte at or
  above 0x80 is decoded by `ReadRune` as U+FFFD (size 1), and every byte at
  or above 0x80 belongs either to such an invalid sequence or to a multibyte
  sequence encoding a rune above 0x7F, so "the input contains a byte at or
  above 0x80" corresponds at this level to "the rune stream contains a rune
  above 0x7F".
- Octet strings (`[]byte`) are `List Nat` with byte values 0..255.
- Go `(value, err)` multiple returns are tuples with an `Option PErr`
  component; `nil` error is `none`.
- A Go runtime panic (the out-of-range slice write that `hex.Decode` /
  `base64.Decode` perform when the destination is too short) aborts the whole
  call chain; nothing in the package recovers.  It is modelled as the
  distinguished abort value `PErr.panicOutOfRange`, which propagates through
  every frame exactly like the abort does (it is not equal to `PErr.eof`, so
  the end-of-input forgiveness in `Parse` does not catch it).
- The mutually recursive `parseNode`/`parseList` loop is given explicit fuel
  so the definitions stay executable by kernel reduction.  Fuel is spent only
  on self/mutual recursion steps; every whitespace-skip step consumes one
  input rune, and per list there is one extra fuel unit spent per child
  hand-off and one per list end, each of which also consumes at least one
  input rune inside the child / as the closing parenthesis, so a run on
  input of length L spends at most 2*L + 1 fuel along any call chain.
  `ParseWith` supplies fuel 2*L + 2, which is therefore never exhausted; the
  `PErr.fuelExhausted` marker is unreachable from the entry points.
-/

namespace Sexp

/-- Error kinds.  The first five are the package error variables in
`sexp.go`; the rest model errors of the Go standard library that the package
propagates, plus the panic marker and the (unreachable) fuel marker. -/
inductive PErr where
  /-- Go `ErrNotASCII` -/
  | notASCII
  /-- Go `ErrParseUnacceptableWhitespace` -/
  | unacceptableWhitespace
  /-- Go `ErrUnexpectedChar` -/
  | unexpectedChar
  /-- Go `ErrInvalidLengthPrefix` (the length-hint mismatch error) -/
  | lengthMismatch
  /-- Go `ErrInvalidTokenChar` -/
  | invalidTokenChar
  /-- Go `io.EOF` -/
  | eof
  /-- Go `io.ErrUnexpectedEOF` -/
  | unexpectedEOF
  /-- Go `encoding/hex` `ErrLength` (odd-length source) -/
  | hexLength
  /-- Go `encoding/hex` `InvalidByteError` -/
  | hexInvalidByte
  /-- Go `encoding/base64` `CorruptInputError` -/
  | base64Corrupt
  /-- Go `strconv` `ErrSyntax` -/
  | syntaxError
  /-- Go `strconv` `ErrRange` (value does not fit in uint64) -/
  | rangeError
  /-- a Go runtime panic: out-of-range write into the decode destination -/
  | panicOutOfRange
  /-- model-only: fuel ran out (unreachable from the entry points) -/
  | fuelExhausted
deriving DecidableEq

/-- The `Node` type of `sexp.go`: a tagged union over the four `Kind`
values.  `OctetString` payloads are byte lists; `List` payloads are child
lists. -/
inductive Node where
  | list (children : List Node)
  | token (octets : List Nat)
  | hexadecimal (octets : List Nat)
  | base64 (octets : List Nat)

/-- Go `isAlpha`: `A`..`Z` (65..90) or `a`..`z` (97..122). -/
def isAlpha (r : Char) : Bool :=
  (65 ≤ r.toNat && r.toNat ≤ 90) || (97 ≤ r.toNat && r.toNat ≤ 122)

/-- Go `isDigit`: `0`..`9` (48..57). -/
def isDigit (r : Char) : Bool :=
  48 ≤ r.toNat && r.toNat ≤ 57

/-- Go `isGraphic`: the token punctuation set. -/
def isGraphic (r : Char) : Bool :=
  r = '-' || r = '.' || r = '/' || r = '_' || r = ':' || r = '*' || r = '+' || r = '='

/-- Go `isTokenStart`. -/
def isTokenStart (r : Char) : Bool :=
  isAlpha r || isGraphic r

/-- Go `isTokenRemainder`. -/
def isTokenRemainder (r : Char) : Bool :=
  isAlpha r || isDigit r || isGraphic r

/-- Go `isHexadecimalRemainder`: `0`..`9`, `A`..`F` (65..70), `a`..`f`
(97..102). -/
def isHexadecimalRemainder (r : Char) : Bool :=
  (48 ≤ r.toNat && r.toNat ≤ 57) ||
  (65 ≤ r.toNat && r.toNat ≤ 70) ||
  (97 ≤ r.toNat && r.toNat ≤ 102)

/-- Go `isBase64Remainder`: `0`..`9`, `A`..`Z`, `a`..`z`, `+`, `/`.  Note
that the padding character `=` is NOT in this set. -/
def isBase64Remainder (r : Char) : Bool :=
  (48 ≤ r.toNat && r.toNat ≤ 57) ||
  (65 ≤ r.toNat && r.toNat ≤ 90) ||
  (97 ≤ r.toNat && r.toNat ≤ 122) ||
  r = '+' || r = '/'

/-- Go `(e *encoding).shouldDiscard`.  `disallowNewlines` is the
`DisallowNewlines` field: `true` for `LimitedEncoding` (strict),
`false` for `FullEncoding` (permissive).  `unicode.MaxASCII` is 0x7F;
CR is 13, LF is 10; the discardable set is any rune at most 0x20
(the `r <= ' '` comparison) together with the redundant explicit tab (9),
vertical tab (11) and form feed (12) checks. -/
def shouldDiscard (disallowNewlines : Bool) (r : Char) : Bool × Option PErr :=
  if 127 < r.toNat then (false, some .notASCII)
  else if r.toNat = 13 || r.toNat = 10 then
    (if disallowNewlines then (false, some .unacceptableWhitespace) else (true, none))
  else if r.toNat ≤ 32 || r.toNat = 9 || r.toNat = 11 || r.toNat = 12 then (true, none)
  else (false, none)

/-- Go `strconv.ParseUint(s, 10, 64)` restricted to inputs made of decimal
digits (the only way `parseDecimal` calls it): the numeric value, with
`ErrSyntax` on the empty string and `ErrRange` (and the clamped maximum
value) when the value does not fit in 64 bits. -/
def parseUint64 (ds : List Char) : Nat × Option PErr :=
  let v := ds.foldl (fun a c => a * 10 + (c.toNat - 48)) 0
  if ds.isEmpty then (0, some .syntaxError)
  else if v < 2 ^ 64 then (v, none)
  else (2 ^ 64 - 1, some .rangeError)

/-- The read loop of Go `parseDecimal`: collect digits; at the first
non-digit unread it and convert the collected digits with `ParseUint`;
a read failure (end of input) is returned as `io.EOF` without converting. -/
def parseDecimalLoop (acc : List Char) : List Char → Nat × List Char × Option PErr
  | [] => (0, [], some .eof)
  | r :: rest =>
    if !(48 ≤ r.toNat && r.toNat ≤ 57) then
      match parseUint64 acc with
      | (v, e) => (v, r :: rest, e)
    else parseDecimalLoop (acc ++ [r]) rest

/-- Go `(e *encoding).parseDecimal`. -/
def parseDecimal (inp : List Char) : Nat × List Char × Option PErr :=
  parseDecimalLoop [] inp

/-- The read loop of Go `parseToken`: collect token-remainder runes; stop
(and unread) at the first rune that is not one; at end of input the
collected token is still produced but `io.EOF` is reported alongside it. -/
def parseTokenLoop (acc : List Nat) : List Char → Option Node × List Char × Option PErr
  | [] => (some (.token acc), [], some .eof)
  | r :: rest =>
    if !(isTokenRemainder r) then (some (.token acc), r :: rest, none)
    else parseTokenLoop (acc ++ [r.toNat]) rest

/-- Go `(e *encoding).parseToken`. -/
def parseToken (inp : List Char) : Option Node × List Char × Option PErr :=
  parseTokenLoop [] inp

/-- Go `encoding/hex` `fromHexChar` (checked in source order:
`0`..`9`, `a`..`f`, `A`..`F`). -/
def fromHexChar (c : Char) : Option Nat :=
  if 48 ≤ c.toNat && c.toNat ≤ 57 then some (c.toNat - 48)
  else if 97 ≤ c.toNat && c.toNat ≤ 102 then some (c.toNat - 97 + 10)
  else if 65 ≤ c.toNat && c.toNat ≤ 70 then some (c.toNat - 65 + 10)
  else none

/-- Go `hex.Decode(dst, src)` with `dstLen = len(dst)`: decode hex digit
pairs (most significant nibble first) into consecutive destination bytes.
An invalid byte aborts with `InvalidByteError`; writing past the end of the
destination is a runtime panic; a trailing unpaired digit yields
`ErrLength` (after its own validity check).  The returned list is the
successfully written prefix, whose length is the Go return value `n`. -/
def hexDecodeLoop (dstLen : Nat) (acc : List Nat) : List Char → List Nat × Option PErr
  | a :: b :: rest =>
    match fromHexChar a with
    | none => (acc, some .hexInvalidByte)
    | some x =>
      match fromHexChar b with
      | none => (acc, some .hexInvalidByte)
      | some y =>
        if dstLen ≤ acc.length then (acc, some .panicOutOfRange)
        else hexDecodeLoop dstLen (acc ++ [x * 16 + y]) rest
  | [c] => (acc, if (fromHexChar c).isSome then some .hexLength else some .hexInvalidByte)
  | [] => (acc, none)

/-- Go `hex.Decode`. -/
def hexDecode (dstLen : Nat) (src : List Char) : List Nat × Option PErr :=
  hexDecodeLoop dstLen [] src

/-- Index of a rune in the standard base64 alphabet
(`A`..`Z` = 0..25, `a`..`z` = 26..51, `0`..`9` = 52..61, `+` = 62,
`/` = 63); `none` for anything else, including the padding `=`. -/
def b64Index (c : Char) : Option Nat :=
  if 65 ≤ c.toNat && c.toNat ≤ 90 then some (c.toNat - 65)
  else if 97 ≤ c.toNat && c.toNat ≤ 122 then some (c.toNat - 97 + 26)
  else if 48 ≤ c.toNat && c.toNat ≤ 57 then some (c.toNat - 48 + 52)
  else if c = '+' then some 62
  else if c = '/' then some 63
  else none

/-- Emit a quantum of decoded bytes into the bounded destination: a write
past `dstLen` is the Go runtime panic. -/
def b64Out (dstLen : Nat) (acc : List Nat) (bytes : List Nat) : List Nat × Option PErr :=
  if dstLen < acc.length + bytes.length then (acc, some .panicOutOfRange)
  else (acc ++ bytes, none)

/-- Go `base64.StdEncoding.Decode(dst, src)` with `dstLen = len(dst)`,
restricted to sources free of CR/LF (the only sources the parser produces):
process quanta of four characters; padding `=` is legal only in the last
quantum, at the third and fourth positions; an incomplete final quantum or
a character outside the alphabet is `CorruptInputError`. -/
def b64DecodeLoop (dstLen : Nat) (acc : List Nat) : List Char → List Nat × Option PErr
  | [] => (acc, none)
  | c1 :: c2 :: c3 :: c4 :: rest =>
    match b64Index c1, b64Index c2 with
    | some a, some b =>
      if c3 = '=' then
        if c4 = '=' && rest.isEmpty then
          b64Out dstLen acc [a * 4 + b / 16]
        else (acc, some .base64Corrupt)
      else
        match b64Index c3 with
        | none => (acc, some .base64Corrupt)
        | some c =>
          if c4 = '=' then
            if rest.isEmpty then
              b64Out dstLen acc [a * 4 + b / 16, b % 16 * 16 + c / 4]
            else (acc, some .base64Corrupt)
          else
            match b64Index c4 with
            | none => (acc, some .base64Corrupt)
            | some d =>
              match b64Out dstLen acc [a * 4 + b / 16, b % 16 * 16 + c / 4, c % 4 * 64 + d] with
              | (acc2, none) => b64DecodeLoop dstLen acc2 rest
              | (acc2, some e) => (acc2, some e)
    | _, _ => (acc, some .base64Corrupt)
  | _ => (acc, some .base64Corrupt)

/-- Go `base64.StdEncoding.Decode`. -/
def b64Decode (dstLen : Nat) (src : List Char) : List Nat × Option PErr :=
  b64DecodeLoop dstLen [] src

/-- The read loop of Go `parseHexadecimal`: collect hex digits, skipping
discardable whitespace (with `shouldDiscard` errors propagated); stop at the
terminating `#`, which is read and then unread (so it stays in the
remaining input); any other rune is `ErrUnexpectedChar`.  The result is
(collected digits, remaining input, end-of-input flag, error). -/
def scanHexBody (disallowNewlines : Bool) (acc : List Char) :
    List Char → List Char × List Char × Bool × Option PErr
  | [] => (acc, [], true, none)
  | r :: rest =>
    match shouldDiscard disallowNewlines r with
    | (_, some e) => (acc, rest, false, some e)
    | (true, none) => scanHexBody disallowNewlines acc rest
    | (false, none) =>
      if r = '#' then (acc, r :: rest, false, none)
      else if !(isHexadecimalRemainder r) then (acc, rest, false, some .unexpectedChar)
      else scanHexBody disallowNewlines (acc ++ [r]) rest

/-- Go `(e *encoding).parseHexadecimal`: scan the body; end of input before
the terminator is `io.ErrUnexpectedEOF`; otherwise decode the collected
digits into a destination of `decimal` bytes when a length hint is present
(`hex.DecodedLen`, i.e. half the digit count rounded down, otherwise), and
check a present hint against the decoded count. -/
def parseHexadecimal (disallowNewlines : Bool) (decimal : Nat) (hasDecimal : Bool)
    (inp : List Char) : Option Node × List Char × Option PErr :=
  match scanHexBody disallowNewlines [] inp with
  | (_, rest, _, some e) => (none, rest, some e)
  | (body, rest, eofHit, none) =>
    if eofHit then (none, rest, some .unexpectedEOF)
    else
      let dstLen := if hasDecimal then decimal else body.length / 2
      match hexDecode dstLen body with
      | (_, some e) => (none, rest, some e)
      | (bytes, none) =>
        if hasDecimal && bytes.length ≠ dstLen then (none, rest, some .lengthMismatch)
        else (some (.hexadecimal bytes), rest, none)

/-- The read loop of Go `parseBase64`, symmetric to `scanHexBody` with the
`|` terminator and the base64 alphabet. -/
def scanB64Body (disallowNewlines : Bool) (acc : List Char) :
    List Char → List Char × List Char × Bool × Option PErr
  | [] => (acc, [], true, none)
  | r :: rest =>
    match shouldDiscard disallowNewlines r with
    | (_, some e) => (acc, rest, false, some e)
    | (true, none) => scanB64Body disallowNewlines acc rest
    | (false, none) =>
      if r = '|' then (acc, r :: rest, false, none)
      else if !(isBase64Remainder r) then (acc, rest, false, some .unexpectedChar)
      else scanB64Body disallowNewlines (acc ++ [r]) rest

/-- Go `(e *encoding).parseBase64`, symmetric to `parseHexadecimal` with
`base64.StdEncoding` (whose `DecodedLen` is `len / 4 * 3`). -/
def parseBase64 (disallowNewlines : Bool) (decimal : Nat) (hasDecimal : Bool)
    (inp : List Char) : Option Node × List Char × Option PErr :=
  match scanB64Body disallowNewlines [] inp with
  | (_, rest, _, some e) => (none, rest, some e)
  | (body, rest, eofHit, none) =>
    if eofHit then (none, rest, some .unexpectedEOF)
    else
      let dstLen := if hasDecimal then decimal else body.length / 4 * 3
      match b64Decode dstLen body with
      | (_, some e) => (none, rest, some e)
      | (bytes, none) =>
        if hasDecimal && bytes.length ≠ dstLen then (none, rest, some .lengthMismatch)
        else (some (.base64 bytes), rest, none)

mutual

/-- Go `(e *encoding).parseNode`.  The result mirrors the Go named returns
`(n, listEnd, err)` plus the remaining input.  Fuel is spent on the
whitespace-skip loop iterations and on the mutual hand-offs only; see the
header comment for the budget. -/
def parseNode (disallowNewlines : Bool) : Nat → List Char → Option Node × Bool × List Char × Option PErr
  | _, [] => (none, false, [], some .eof)
  | 0, inp => (none, false, inp, some .fuelExhausted)
  | fuel + 1, r :: rest =>
    match shouldDiscard disallowNewlines r with
    | (_, some e) => (none, false, rest, some e)
    | (true, none) => parseNode disallowNewlines fuel rest
    | (false, none) =>
      if r = ')' then (none, true, rest, none)
      else if r = '(' then
        -- Go calls parseList here; parseList is the loop below plus its
        -- deferred io.EOF-to-io.ErrUnexpectedEOF conversion, which the loop
        -- applies at its own return points.
        match parseListLoop disallowNewlines [] fuel rest with
        | (n, rest2, e) => (n, false, rest2, e)
      else if isTokenStart r then
        -- unread r, then parseToken
        match parseToken (r :: rest) with
        | (n, rest2, e) => (n, false, rest2, e)
      else if 48 ≤ r.toNat && r.toNat ≤ 57 then
        -- optional leading decimal indicating size: unread r, parseDecimal,
        -- then one more rune which must be the string opener
        match parseDecimal (r :: rest) with
        | (_, rest2, some e) => (none, false, rest2, some e)
        | (decimal, rest2, none) =>
          match rest2 with
          | [] => (none, false, [], some .eof)
          | r2 :: rest3 =>
            if r2 = '|' then
              match parseBase64 disallowNewlines decimal true rest3 with
              | (n, rest4, e) => (n, false, rest4, e)
            else if r2 = '#' then
              match parseHexadecimal disallowNewlines decimal true rest3 with
              | (n, rest4, e) => (n, false, rest4, e)
            else (none, false, rest3, some .unexpectedChar)
      else if r = '|' then
        match parseBase64 disallowNewlines 0 false rest with
        | (n, rest2, e) => (n, false, rest2, e)
      else if r = '#' then
        match parseHexadecimal disallowNewlines 0 false rest with
        | (n, rest2, e) => (n, false, rest2, e)
      else (none, false, rest, some .unexpectedChar)
termination_by structural fuel => fuel

/-- The loop of Go `(e *encoding).parseList`, with `acc` the children
accumulated so far in the list node under construction.  The deferred
handler of `parseList` (convert a returned `io.EOF` into
`io.ErrUnexpectedEOF`) is applied at each return point: end of input while
reading (the Go partial list node is returned alongside the converted
error), and a child error (where Go returns a nil node). -/
def parseListLoop (disallowNewlines : Bool) (acc : List Node) : Nat → List Char → Option Node × List Char × Option PErr
  | _, [] => (some (.list acc), [], some .unexpectedEOF)
  | 0, inp => (none, inp, some .fuelExhausted)
  | fuel + 1, r :: rest =>
    match shouldDiscard disallowNewlines r with
    | (_, some e) => (some (.list acc), rest, some e)
    | (true, none) => parseListLoop disallowNewlines acc fuel rest
    | (false, none) =>
      -- unread r, then parseNode on the same input
      match parseNode disallowNewlines fuel (r :: rest) with
      | (_, _, rest2, some e) =>
        (none, rest2, some (if e = .eof then .unexpectedEOF else e))
      | (_, true, rest2, none) => (some (.list acc), rest2, none)
      | (some child, false, rest2, none) =>
        parseListLoop disallowNewlines (acc ++ [child]) fuel rest2
      | (none, false, rest2, none) =>
        -- unreachable: parseNode never produces a nil node together with a
        -- nil error and no list end (Go would append a nil child pointer)
        parseListLoop disallowNewlines acc fuel rest2
termination_by structural fuel => fuel

end

/-- Go `(e *encoding).parseList`: the loop starting from the freshly
allocated empty list node. -/
def parseList (disallowNewlines : Bool) (fuel : Nat) (inp : List Char) :
    Option Node × List Char × Option PErr :=
  parseListLoop disallowNewlines [] fuel inp

/-- Go `(e *encoding).Parse`: run `parseNode`; a dangling list end is
`ErrUnexpectedChar`; a plain `io.EOF` is forgiven (benign end of input, the
node — possibly absent — is returned); any other error yields a nil node. -/
def ParseWith (disallowNewlines : Bool) (inp : List Char) : Option Node × Option PErr :=
  match parseNode disallowNewlines (2 * inp.length + 2) inp with
  | (n, listEnd, _, e) =>
    let e := if listEnd then some PErr.unexpectedChar else e
    let e := if e = some PErr.eof then none else e
    match e with
    | some e2 => (none, some e2)
    | none => (n, none)

/-- Go `Parse` / `LimitedEncoding.Parse` (strict mode: newlines rejected). -/
def ParseStrict (inp : List Char) : Option Node × Option PErr :=
  ParseWith true inp

/-- Go `FullEncoding.Parse` (permissive mode: newlines discardable). -/
def ParseFull (inp : List Char) : Option Node × Option PErr :=
  ParseWith false inp

/-- Lower-case hex digit, as emitted by Go `encoding/hex` (`hextable` is
`0123456789abcdef`). -/
def hexDigitChar (n : Nat) : Char :=
  Char.ofNat (if n < 10 then 48 + n else 87 + n)

/-- Go `hex.Encode` (via `hex.NewEncoder`): two lower-case digits per byte,
most significant nibble first. -/
def hexEncode : List Nat → List Char
  | [] => []
  | b :: rest => hexDigitChar (b / 16 % 16) :: hexDigitChar (b % 16) :: hexEncode rest

/-- Rune of the standard base64 alphabet at a given index. -/
def b64Char (n : Nat) : Char :=
  if n < 26 then Char.ofNat (65 + n)
  else if n < 52 then Char.ofNat (97 + (n - 26))
  else if n < 62 then Char.ofNat (48 + (n - 52))
  else if n = 62 then '+'
  else '/'

/-- Go `base64.NewEncoder(base64.StdEncoding, ...)` followed by `Close`:
standard base64 with `=` padding, three input bytes per four output
runes. -/
def base64Encode : List Nat → List Char
  | [] => []
  | [b1] =>
    let h1 := b1 % 256
    [b64Char (h1 / 4), b64Char (h1 % 4 * 16), '=', '=']
  | [b1, b2] =>
    let h1 := b1 % 256
    let h2 := b2 % 256
    [b64Char (h1 / 4), b64Char (h1 % 4 * 16 + h2 / 16), b64Char (h2 % 16 * 4), '=']
  | b1 :: b2 :: b3 :: rest =>
    let h1 := b1 % 256
    let h2 := b2 % 256
    let h3 := b3 % 256
    b64Char (h1 / 4) :: b64Char (h1 % 4 * 16 + h2 / 16) ::
      b64Char (h2 % 16 * 4 + h3 / 64) :: b64Char (h3 % 64) :: base64Encode rest

mutual

/-- Go `(n *Node).appendToBuilder` (equivalently `(n *Node).String` on a
non-nil node, whose encoder never reports an error): lists are the children
separated by single spaces between parentheses; tokens are their bytes
verbatim; hexadecimal atoms are lower-case digit pairs between `#`;
base64 atoms are padded standard base64 between `|`. -/
def encodeNode : Node → List Char
  | .list cs => '(' :: encodeChildren cs ++ [')']
  | .token s => s.map Char.ofNat
  | .hexadecimal s => '#' :: hexEncode s ++ ['#']
  | .base64 s => '|' :: base64Encode s ++ ['|']

/-- The child loop of the list case of `appendToBuilder`: a single space
after every child except the last. -/
def encodeChildren : List Node → List Char
  | [] => []
  | [c] => encodeNode c
  | c :: c2 :: rest => encodeNode c ++ ' ' :: encodeChildren (c2 :: rest)

end

/-- Go builder `Token` / `(e *encoding).Token`: every rune of the argument
is validated (the first against `isTokenStart`, the rest against
`isTokenRemainder`; an empty argument is vacuously valid) and the bytes are
stored in a `KindToken` node; a bad rune yields `ErrInvalidTokenChar` and no
node. -/
def Token (s : List Char) : Option Node × Option PErr :=
  match s with
  | [] => (some (.token []), none)
  | r :: rest =>
    if isTokenStart r && rest.all isTokenRemainder then
      (some (.token ((r :: rest).map Char.toNat)), none)
    else (none, some .invalidTokenChar)

/-- Go builder `Hexadecimal`: wrap the bytes in a `KindHexadecimal` node. -/
def Hexadecimal (s : List Nat) : Node :=
  .hexadecimal s

/-- Go builder `Base64`: wrap the bytes in a `KindBase64` node. -/
def Base64 (s : List Nat) : Node :=
  .base64 s

/-- Go builder `List` (named `listNode` here because `List` collides with
the Lean prelude): wrap the children in a `KindList` node. -/
def listNode (children : List Node) : Node :=
  .list children

/-- A hex-digit rune is neither discardable nor an error for
`shouldDiscard`, in either mode. -/
theorem hexChar_not_discard (d : Bool) (c : Char)
    (h : isHexadecimalRemainder c = true) : shouldDiscard d c = (false, none) := by
  unfold isHexadecimalRemainder at h
  simp only [Bool.or_eq_true, Bool.and_eq_true, decide_eq_true_eq] at h
  unfold shouldDiscard
  rw [if_neg (by omega)]
  rw [if_neg (by simp only [Bool.or_eq_true, decide_eq_true_eq]; omega)]
  rw [if_neg (by simp only [Bool.or_eq_true, decide_eq_true_eq]; omega)]

/-- A hex-digit rune is not the `#` terminator. -/
theorem hexChar_ne_hash (c : Char) (h : isHexadecimalRemainder c = true) :
    ¬ (c = '#') := by
  intro hc
  subst hc
  exact absurd h (by decide)

/-- A valid hex digit has a nibble value. -/
theorem hexChar_isSome (c : Char) (h : isHexadecimalRemainder c = true) :
    (fromHexChar c).isSome = true := by
  unfold isHexadecimalRemainder at h
  simp only [Bool.or_eq_true, Bool.and_eq_true, decide_eq_true_eq] at h
  unfold fromHexChar
  split_ifs with a b c2
  · rfl
  · rfl
  · rfl
  · simp only [Bool.and_eq_true, decide_eq_true_eq, not_and, not_le] at a b c2
    exfalso
    omega

/-- A decimal-digit rune is not a token start (digits are neither alphabetic
nor token punctuation). -/
theorem digit_not_tokenStart (c : Char) (h1 : 48 ≤ c.toNat) (h2 : c.toNat ≤ 57) :
    isTokenStart c = false := by
  have hpunct : ∀ p : Char, p.toNat < 48 ∨ 57 < p.toNat → (c = p) = False := by
    intro p hp
    apply eq_false
    intro hc
    subst hc
    omega
  unfold isTokenStart isAlpha isGraphic
  simp only [hpunct '-' (by decide), hpunct '.' (by decide), hpunct '/' (by decide),
    hpunct '_' (by decide), hpunct ':' (by decide), hpunct '*' (by decide),
    hpunct '+' (by decide), hpunct '=' (by decide)]
  simp only [Bool.or_eq_false_iff, Bool.and_eq_false_iff, decide_eq_false_iff_not,
    decide_False, and_true]
  omega

/-- The hex body scanner consumes a run of hex digits up to the end of the
input, collecting all of them. -/
theorem scanHex_all (d : Bool) (body : List Char)
    (hhex : ∀ c ∈ body, isHexadecimalRemainder c = true) :
    ∀ acc, scanHexBody d acc body = (acc ++ body, [], true, none) := by
  induction body with
  | nil => intro acc; simp [scanHexBody]
  | cons c rest ih =>
    intro acc
    have hc : isHexadecimalRemainder c = true := hhex c (by simp)
    have h1 : shouldDiscard d c = (false, none) := hexChar_not_discard d c hc
    have h2 : (c = '#') = False := eq_false (hexChar_ne_hash c hc)
    simp only [scanHexBody, h1, h2, if_false, hc, Bool.not_true, Bool.false_eq_true]
    rw [ih (fun x hx => hhex x (by simp [hx])) (acc ++ [c])]
    simp

/-- The hex body scanner consumes a run of hex digits up to the terminating
hash, which is read and then unread. -/
theorem scanHex_toHash (d : Bool) (body : List Char)
    (hhex : ∀ c ∈ body, isHexadecimalRemainder c = true) :
    ∀ acc tail, scanHexBody d acc (body ++ '#' :: tail) =
      (acc ++ body, '#' :: tail, false, none) := by
  induction body with
  | nil =>
    intro acc tail
    simp [scanHexBody, shouldDiscard]
  | cons c rest ih =>
    intro acc tail
    have hc : isHexadecimalRemainder c = true := hhex c (by simp)
    have h1 : shouldDiscard d c = (false, none) := hexChar_not_discard d c hc
    have h2 : (c = '#') = False := eq_false (hexChar_ne_hash c hc)
    simp only [List.cons_append, scanHexBody, h1, h2, if_false, hc, Bool.not_true,
      Bool.false_eq_true, List.append_eq]
    rw [ih (fun x hx => hhex x (by simp [hx])) (acc ++ [c]) tail]
    simp

/-- Decoding an odd-length run of valid hex digits always reports the
odd-length error of the Go hex codec (provided the destination does not
overflow first, which is the case when the destination was sized by
`DecodedLen`). -/
theorem hexDecodeLoop_odd :
    ∀ (body : List Char) (acc : List Nat) (dstLen : Nat),
      (∀ c ∈ body, (fromHexChar c).isSome = true) →
      body.length % 2 = 1 →
      acc.length + body.length / 2 ≤ dstLen →
      (hexDecodeLoop dstLen acc body).2 = some PErr.hexLength
  | [], _, _, _, hodd, _ => by simp at hodd
  | [c], acc, dstLen, hv, _, _ => by
    simp [hexDecodeLoop, hv c (by simp)]
  | a :: b :: rest, acc, dstLen, hv, hodd, hlen => by
    obtain ⟨x, hx⟩ := Option.isSome_iff_exists.mp (hv a (by simp))
    obtain ⟨y, hy⟩ := Option.isSome_iff_exists.mp (hv b (by simp))
    have hlt : ¬ (dstLen ≤ acc.length) := by
      simp only [List.length_cons] at hlen
      omega
    simp only [hexDecodeLoop, hx, hy, hlt, if_false]
    refine hexDecodeLoop_odd rest (acc ++ [x * 16 + y]) dstLen
      (fun c hc => hv c (by simp [hc]))
      (by simp only [List.length_cons] at hodd; omega)
      ?_
    simp only [List.length_cons] at hlen
    simp only [List.length_append, List.length_cons, List.length_nil]
    omega

/-- The decimal read loop on an all-digit input runs to the end of the
input and reports `io.EOF` without converting. -/
theorem parseDecimalLoop_digits (ds : List Char)
    (hds : ∀ c ∈ ds, 48 ≤ c.toNat ∧ c.toNat ≤ 57) :
    ∀ acc, parseDecimalLoop acc ds = (0, [], some PErr.eof) := by
  induction ds with
  | nil => intro acc; rfl
  | cons c rest ih =>
    intro acc
    have hc := hds c (by simp)
    have h1 : (48 ≤ c.toNat && c.toNat ≤ 57) = true := by
      simp only [Bool.and_eq_true, decide_eq_true_eq]
      omega
    simp only [parseDecimalLoop, h1, Bool.not_true, Bool.false_eq_true, if_false]
    exact ih (fun x hx => hds x (by simp [hx])) (acc ++ [c])

/-- Skipping only discardable whitespace until the end of the input makes
`parseNode` surface the benign `io.EOF` signal with no node. -/
theorem parseNode_ws (d : Bool) (s : List Char)
    (hws : ∀ c ∈ s, shouldDiscard d c = (true, none)) :
    ∀ f, s.length < f → parseNode d f s = (none, false, [], some PErr.eof) := by
  induction s with
  | nil => intro f _; cases f <;> rfl
  | cons c rest ih =>
    intro f hf
    obtain ⟨g, rfl⟩ : ∃ g, f = g + 1 := ⟨f - 1, by omega⟩
    have h1 : shouldDiscard d c = (true, none) := hws c (by simp)
    simp only [parseNode, h1]
    exact ih (fun x hx => hws x (by simp [hx])) g (by simpa using Nat.lt_of_succ_lt_succ hf)

/-- With fuel available, `parseNode` on an input starting with `#`
dispatches to `parseHexadecimal` with no length hint. -/
theorem parseNode_hash (d : Bool) (f : Nat) (body : List Char) :
    parseNode d (f + 1) ('#' :: body) =
      match parseHexadecimal d 0 false body with
      | (n, rest2, e) => (n, false, rest2, e) := by
  cases d <;> rfl

/-- With fuel available, `parseNode` on an input starting with a decimal
digit and consisting only of decimal digits runs the length-prefix scan to
the end of the input and surfaces the benign `io.EOF` signal. -/
theorem parseNode_digits_eof (d : Bool) (f : Nat) (c : Char) (rest : List Char)
    (h1 : 48 ≤ c.toNat) (h2 : c.toNat ≤ 57)
    (hrest : ∀ x ∈ rest, 48 ≤ x.toNat ∧ x.toNat ≤ 57) :
    parseNode d (f + 1) (c :: rest) = (none, false, [], some PErr.eof) := by
  have hd : shouldDiscard d c = (false, none) := by
    apply hexChar_not_discard
    unfold isHexadecimalRemainder
    simp only [Bool.or_eq_true, Bool.and_eq_true, decide_eq_true_eq]
    omega
  have hts : isTokenStart c = false := digit_not_tokenStart c h1 h2
  have hne1 : (c = ')') = False := eq_false (fun hc => by subst hc; exact absurd h1 (by decide))
  have hne2 : (c = '(') = False := eq_false (fun hc => by subst hc; exact absurd h1 (by decide))
  have hdig : (48 ≤ c.toNat && c.toNat ≤ 57) = true := by
    simp only [Bool.and_eq_true, decide_eq_true_eq]
    omega
  have hdec : parseDecimal (c :: rest) = (0, [], some PErr.eof) :=
    parseDecimalLoop_digits (c :: rest)
      (by
        intro x hx
        rcases List.mem_cons.mp hx with hx | hx
        · subst hx; exact ⟨h1, h2⟩
        · exact hrest x hx) []
  simp only [parseNode, hd, hne1, hne2, hts, hdig, if_false, if_true,
    Bool.false_eq_true, hdec]

/-- Scanning a hex body made only of hex digits up to the end of the input
makes `parseHexadecimal` fail with `io.ErrUnexpectedEOF`, with or without a
length hint. -/
theorem parseHex_eof (d : Bool) (decimal : Nat) (hasD : Bool) (body : List Char)
    (hhex : ∀ c ∈ body, isHexadecimalRemainder c = true) :
    parseHexadecimal d decimal hasD body = (none, [], some PErr.unexpectedEOF) := by
  unfold parseHexadecimal
  rw [scanHex_all d body hhex []]
  simp

/-- A hex-string body holding an odd number of hex digits (and nothing
else) up to its terminator makes `parseHexadecimal` (without length hint)
fail with the odd-length error of the Go hex codec. -/
theorem parseHex_odd (d : Bool) (body : List Char)
    (hhex : ∀ c ∈ body, isHexadecimalRemainder c = true)
    (hodd : body.length % 2 = 1) :
    parseHexadecimal d 0 false (body ++ ['#']) = (none, ['#'], some PErr.hexLength) := by
  have hdec2 : (hexDecode (body.length / 2) body).2 = some PErr.hexLength := by
    unfold hexDecode
    exact hexDecodeLoop_odd body [] (body.length / 2)
      (fun c hc => hexChar_isSome c (hhex c hc)) hodd (by simp)
  unfold parseHexadecimal
  rw [scanHex_toHash d body hhex [] []]
  rcases hde : hexDecode (body.length / 2) body with ⟨bs, e⟩
  rw [hde] at hdec2
  simp only at hdec2
  subst hdec2
  simp [hde]

end Sexp

open Sexp

/-- C1: the round-trip law fails on the code.  The builder node
`Base64 [0x61]` encodes to the padded form between pipes, whose padding
rune the parser rejects with `ErrUnexpectedChar`; and the builder node
`List [Hexadecimal [0x61]]` encodes to a hex atom between parentheses,
which the parser also rejects with `ErrUnexpectedChar` because the atom
parser unreads the terminating hash, so the list loop re-dispatches on it.
In both cases `parse(encode(n))` is an error rather than `n`. -/
theorem claim_C1_roundtrip_broken :
    Base64 [97] = Node.base64 [97] ∧
    encodeNode (Base64 [97]) = "|YQ==|".data ∧
    ParseStrict (encodeNode (Base64 [97])) = (none, some PErr.unexpectedChar) ∧
    listNode [Hexadecimal [97]] = Node.list [Node.hexadecimal [97]] ∧
    encodeNode (listNode [Hexadecimal [97]]) = "(#61#)".data ∧
    ParseStrict (encodeNode (listNode [Hexadecimal [97]])) = (none, some PErr.unexpectedChar) :=
  ⟨rfl, rfl, rfl, rfl, rfl, rfl⟩

/-- C2: the claim fails on the code.  The padding rune `=` is not in
`isBase64Remainder`, and the body scan loop of `parseBase64` rejects any
rune outside that set before the base64 codec ever runs, so parsing the
encoder output for a one-byte payload fails with `ErrUnexpectedChar`
instead of yielding the decoded octets. -/
theorem claim_C2_base64_padding_rejected :
    isBase64Remainder '=' = false ∧
    ParseStrict "|YQ==|".data = (none, some PErr.unexpectedChar) :=
  ⟨rfl, rfl⟩

/-- C3 (counterexample): parsing the hex-string with a single odd digit
does not produce the byte 0x60; it fails with the odd-length error of the
Go hex codec. -/
theorem claim_C3_counterexample :
    ParseStrict "#6#".data = (none, some PErr.hexLength) ∧
    ParseStrict "#6#".data ≠ (some (Node.hexadecimal [96]), none) :=
  ⟨rfl, fun h => Option.noConfusion (congrArg Prod.fst h)⟩

/-- C3 (amended): for every hex-string whose body contains an odd number
of hex digits (and no whitespace), parsing fails with the odd-length error
of the Go hex codec (`hex.ErrLength`); no node is produced and no
unpaired-digit decoding takes place. -/
theorem claim_C3_odd_hex_error (body : List Char)
    (hhex : ∀ c ∈ body, isHexadecimalRemainder c = true)
    (hodd : body.length % 2 = 1) :
    ParseStrict ('#' :: body ++ ['#']) = (none, some PErr.hexLength) := by
  have h0 := parseNode_hash true (2 * ('#' :: body ++ ['#']).length + 1) (body ++ ['#'])
  rw [parseHex_odd true body hhex hodd] at h0
  have hnode : parseNode true (2 * ('#' :: body ++ ['#']).length + 2) ('#' :: body ++ ['#'])
      = (none, false, ['#'], some PErr.hexLength) := h0
  unfold ParseStrict ParseWith
  rw [hnode]
  exact rfl

/-- C3 (witness): the amended claim at the concrete input of the original
claim. -/
theorem claim_C3_witness :
    ParseStrict "#6#".data = (none, some PErr.hexLength) :=
  claim_C3_odd_hex_error ['6'] (by decide) (by decide)

/-- C4: the behavior of length hints: a hint equal to the decoded byte
count succeeds identically to the unprefixed form, a hint greater than the
decoded count yields the typed `ErrInvalidLengthPrefix`, but a hint
smaller than the decoded count aborts with a runtime panic (out-of-range
write inside the codec) before the length check ever runs, contradicting
the claim that every mismatch yields the typed error. -/
theorem claim_C4_length_hint_behavior :
    ParseStrict "3#616263#".data = (some (Node.hexadecimal [97, 98, 99]), none) ∧
    ParseStrict "3#616263#".data = ParseStrict "#616263#".data ∧
    ParseStrict "4#616263#".data = (none, some PErr.lengthMismatch) ∧
    ParseStrict "4|YWJj|".data = (none, some PErr.lengthMismatch) ∧
    ParseStrict "2#616263#".data = (none, some PErr.panicOutOfRange) ∧
    ParseStrict "2|YWJj|".data = (none, some PErr.panicOutOfRange) :=
  ⟨rfl, rfl, rfl, rfl, rfl, rfl⟩

/-- C5: newline handling: parsing a list body holding a newline fails in
strict mode with the unacceptable-whitespace error, the same input parses
in permissive mode to the same tree as the newline-free input in strict
mode, and in general CR (13) and LF (10) are a hard error for the strict
classifier and discardable for the permissive one. -/
theorem claim_C5_strict_newline :
    ParseStrict "(abc\n)".data = (none, some PErr.unacceptableWhitespace) ∧
    ParseFull "(abc\n)".data = ParseStrict "(abc)".data ∧
    (∀ r : Char, r.toNat = 13 ∨ r.toNat = 10 →
      shouldDiscard true r = (false, some PErr.unacceptableWhitespace) ∧
      shouldDiscard false r = (true, none)) := by
  refine ⟨rfl, rfl, ?_⟩
  intro r h
  constructor <;> (unfold shouldDiscard; rcases h with h | h <;> simp [h])

/-- C5 (witness): the classifier facts at the LF rune. -/
theorem claim_C5_witness :
    shouldDiscard true (Char.ofNat 10) = (false, some PErr.unacceptableWhitespace) ∧
    shouldDiscard false (Char.ofNat 10) = (true, none) :=
  claim_C5_strict_newline.2.2 (Char.ofNat 10) (Or.inr rfl)

/-- C6 (counterexample): end of input reached right after the digits of a
length prefix — mid-construction of a node — is NOT promoted to
`UnexpectedEndOfInput`: `Parse` returns no node and no error. -/
theorem claim_C6_counterexample :
    ParseStrict "12".data = (none, none) ∧
    ParseStrict "12".data ≠ (none, some PErr.unexpectedEOF) :=
  ⟨rfl, fun h => Option.noConfusion (congrArg Prod.snd h)⟩

/-- C6 (amended): end of input while only skipping discardable whitespace
(or on empty input) is not an error — `Parse` reports no node and no
error; end of input inside a hex-string body is `UnexpectedEndOfInput`;
but end of input right after the digits of a length prefix surfaces the
benign signal, so `Parse` reports no node and no error there as well; end
of input inside a list or base64 body is `UnexpectedEndOfInput` (concrete
instances). -/
theorem claim_C6_eof_behavior :
    (∀ s : List Char, (∀ c ∈ s, shouldDiscard true c = (true, none)) →
      ParseStrict s = (none, none)) ∧
    (∀ body : List Char, (∀ c ∈ body, isHexadecimalRemainder c = true) →
      ParseStrict ('#' :: body) = (none, some PErr.unexpectedEOF)) ∧
    (∀ (c : Char) (ds : List Char), 48 ≤ c.toNat → c.toNat ≤ 57 →
      (∀ x ∈ ds, 48 ≤ x.toNat ∧ x.toNat ≤ 57) →
      ParseStrict (c :: ds) = (none, none)) ∧
    ParseStrict "(abc".data = (none, some PErr.unexpectedEOF) ∧
    ParseStrict "|YWJ".data = (none, some PErr.unexpectedEOF) := by
  refine ⟨?_, ?_, ?_, rfl, rfl⟩
  · intro s hws
    unfold ParseStrict ParseWith
    rw [parseNode_ws true s hws (2 * s.length + 2) (by omega)]
    exact rfl
  · intro body hhex
    have h0 := parseNode_hash true (2 * ('#' :: body).length + 1) body
    rw [parseHex_eof true 0 false body hhex] at h0
    have hnode : parseNode true (2 * ('#' :: body).length + 2) ('#' :: body)
        = (none, false, [], some PErr.unexpectedEOF) := h0
    unfold ParseStrict ParseWith
    rw [hnode]
    exact rfl
  · intro c ds h1 h2 hds
    have hnode : parseNode true (2 * (c :: ds).length + 2) (c :: ds)
        = (none, false, [], some PErr.eof) :=
      parseNode_digits_eof true (2 * (c :: ds).length + 1) c ds h1 h2 hds
    unfold ParseStrict ParseWith
    rw [hnode]
    exact rfl

/-- C6 (witness): the amended claim at concrete inputs: whitespace-only
input, an unterminated hex body, and bare length-prefix digits. -/
theorem claim_C6_witness :
    ParseStrict " ".data = (none, none) ∧
    ParseStrict "#61".data = (none, some PErr.unexpectedEOF) ∧
    ParseStrict "12".data = (none, none) :=
  ⟨claim_C6_eof_behavior.1 " ".data (by decide),
   claim_C6_eof_behavior.2.1 ['6', '1'] (by decide),
   claim_C6_eof_behavior.2.2.1 '1' ['2'] (by decide) (by decide) (by decide)⟩

/-- C7 (counterexample): an input containing a rune above 0x7F (the rune
U+FFFD that a stray 0x80 byte decodes to) can parse successfully: a
non-ASCII rune merely terminates a token, so no error is reported at
all. -/
theorem claim_C7_counterexample :
    127 < (Char.ofNat 0xFFFD).toNat ∧
    ParseStrict ['a', 'b', 'c', Char.ofNat 0xFFFD] = (some (Node.token [97, 98, 99]), none) :=
  ⟨by decide, rfl⟩

/-- C7 (amended): a rune above 0x7F is rejected with `ErrNotASCII` by the
whitespace classifier — hence wherever the parser skips whitespace or
scans a hex/base64 body, in both modes (concretely, at the start of the
input) — but paths that do not consult the classifier (token scanning)
treat it as an ordinary delimiter and can succeed. -/
theorem claim_C7_notascii :
    (∀ (d : Bool) (r : Char), 127 < r.toNat → shouldDiscard d r = (false, some PErr.notASCII)) ∧
    ParseStrict [Char.ofNat 0xFFFD] = (none, some PErr.notASCII) ∧
    ParseFull [Char.ofNat 0xFFFD] = (none, some PErr.notASCII) := by
  refine ⟨?_, rfl, rfl⟩
  intro d r h
  unfold shouldDiscard
  rw [if_pos h]

/-- C7 (witness): the classifier fact at the concrete rune U+FFFD. -/
theorem claim_C7_witness :
    shouldDiscard true (Char.ofNat 0xFFFD) = (false, some PErr.notASCII) :=
  claim_C7_notascii.1 true (Char.ofNat 0xFFFD) (by decide)

/-- C8: discardable whitespace inside a hex-string body is skipped and is
not an octet separator: the spaced form parses to the same three bytes as
the compact form, and in general the hex body scanner ignores any rune the
classifier marks discardable. -/
theorem claim_C8_hex_whitespace :
    ParseStrict "#61 6 26 3 #".data = (some (Node.hexadecimal [97, 98, 99]), none) ∧
    ParseStrict "#61 6 26 3 #".data = ParseStrict "#616263#".data ∧
    (∀ (d : Bool) (acc : List Char) (c : Char) (rest : List Char),
      shouldDiscard d c = (true, none) →
      scanHexBody d acc (c :: rest) = scanHexBody d acc rest) := by
  refine ⟨rfl, rfl, ?_⟩
  intro d acc c rest h
  simp only [scanHexBody, h]

/-- C8 (witness): the scanner fact at a concrete space inside a hex
body. -/
theorem claim_C8_witness :
    scanHexBody true [] (' ' :: ['6']) = scanHexBody true [] ['6'] :=
  claim_C8_hex_whitespace.2.2 true [] ' ' ['6'] (by decide)

/-- C9: parsing a lone open parenthesis fails with `UnexpectedEndOfInput`
(the Go `io.ErrUnexpectedEOF`), and parsing a lone close parenthesis at
top level fails with `ErrUnexpectedChar`. -/
theorem claim_C9_malformed_list :
    ParseStrict "(".data = (none, some PErr.unexpectedEOF) ∧
    ParseStrict ")".data = (none, some PErr.unexpectedChar) :=
  ⟨rfl, rfl⟩

/-- C10: the `Token` builder on the empty string succeeds (the validation
loop never runs) and yields a token node with an empty payload, and
encoding that node produces the empty string. -/
theorem claim_C10_empty_token :
    Token "".data = (some (Node.token []), none) ∧
    encodeNode (Node.token []) = "".data :=
  ⟨rfl, rfl⟩

/-!
The following anonymous examples reproduce, against the embedding, every
expectation of the package's own test suite (`TestParse` and
`TestNode_String` in `sexp_test.go`), as evidence that the embedding
matches the source.
-/

section goTestSuite
open Sexp
example : ParseStrict "()".data = (some (.list []), none) := rfl
example : ParseStrict "(abc)".data = (some (.list [.token [97, 98, 99]]), none) := rfl
example : ParseStrict "abc".data = (some (.token [97, 98, 99]), none) := rfl
example : ParseStrict "#616263#".data = (some (.hexadecimal [97, 98, 99]), none) := rfl
example : ParseStrict "#61 6 26 3 #".data = (some (.hexadecimal [97, 98, 99]), none) := rfl
example : ParseStrict "3#616263#".data = (some (.hexadecimal [97, 98, 99]), none) := rfl
example : ParseStrict "4#616263#".data = (none, some .lengthMismatch) := rfl
example : ParseStrict "2#616263#".data = (none, some .panicOutOfRange) := rfl
example : ParseStrict "|YWJj|".data = (some (.base64 [97, 98, 99]), none) := rfl
example : ParseStrict "|YWJ j|".data = (some (.base64 [97, 98, 99]), none) := rfl
example : ParseStrict "|YQ==|".data = (none, some .unexpectedChar) := rfl
example : ParseStrict "(".data = (none, some .unexpectedEOF) := rfl
example : ParseStrict ")".data = (none, some .unexpectedChar) := rfl
example : ParseStrict "(abc\n)".data = (none, some .unacceptableWhitespace) := rfl
example : ParseFull "(abc\n)".data = (some (.list [.token [97, 98, 99]]), none) := rfl
example : ParseStrict "#6#".data = (none, some .hexLength) := rfl
example : ParseStrict "12".data = (none, none) := rfl
example : ParseStrict "(abc (def ghi z/a))".data =
    (some (.list [.token [97, 98, 99],
      .list [.token [100, 101, 102], .token [103, 104, 105], .token [122, 47, 97]]]), none) := rfl
example : ParseStrict "(() () () ( () () ))".data =
    (some (.list [.list [], .list [], .list [],
      .list [.list [], .list []]]), none) := rfl
example : encodeNode (.base64 [97]) = "|YQ==|".data := rfl
example : encodeNode (.list [.token [97, 98, 99], .hexadecimal [97, 98, 99]]) = "(abc #616263#)".data := rfl
example : ParseStrict (encodeNode (.list [.hexadecimal [97]])) = (none, some .unexpectedChar) := rfl
example : ParseStrict ['a', 'b', 'c', Char.ofNat 0xFFFD] = (some (.token [97, 98, 99]), none) := rfl
example : ParseStrict "#61".data = (none, some .unexpectedEOF) := rfl
example : ParseStrict "|YWJ".data = (none, some .unexpectedEOF) := rfl
example : ParseStrict "".data = (none, none) := rfl
example : ParseStrict "abc\n".data = (some (.token [97, 98, 99]), none) := rfl
example : ParseStrict "#61|YyWj".data = (none, some .unexpectedChar) := rfl
example : ParseStrict "4|YWJj|".data = (none, some .lengthMismatch) := rfl
example : ParseStrict "3|YWJj|".data = (some (.base64 [97, 98, 99]), none) := rfl
end goTestSuite
